import Mathlib

set_option maxRecDepth 100000

/-!
Shallow embedding of the news-ingest pipeline
(`src/data_processor.py`, `src/scheduler.py`, `src/kinesis_writer.py`,
`src/newsapi_client.py`) and proofs about its specification claims.

External library calls (`hashlib.sha256`, Python `re`/`str` whitespace
handling) are embedded by implementing their documented behaviour;
external I/O boundaries (the NewsAPI HTTP endpoint, the Kinesis SDK,
the wall clock, `datetime.fromisoformat`) are passed in as explicit
function parameters, since the Python code treats them as opaque
collaborators.
-/

namespace NewsIngest

/-! ## Python dynamic values

The raw NewsAPI article is a JSON object; the fields the code touches are
either strings or `null` (absent keys are modelled with `Option`).  `JValue`
models a Python value that is either `None` or a `str`.  -/

inductive JValue : Type
  | null : JValue
  | str (s : String) : JValue
  deriving DecidableEq, Repr

/-- Python truthiness restricted to the values that occur here:
`None` and `""` are falsy, every other string is truthy. -/
def JValue.truthy : JValue → Bool
  | .null => false
  | .str s => s ≠ ""

/-- The underlying string of a `JValue` (model plumbing: in Python the
value simply is the string once it has passed a truthiness check). -/
def JValue.strOrEmpty : JValue → String
  | .null => ""
  | .str s => s

/-! ## `DataProcessor.clean_text` (src/data_processor.py lines 29-47)

```python
if not text:
    return ""
text = re.sub(r'\s+', ' ', text)
text = text.strip()
return text
```

`re.sub(r'\s+', ' ', text)` replaces every maximal run of whitespace
characters by a single space; `str.strip()` removes leading and trailing
whitespace.  `isPySpace` is the set of characters Python 3 treats as
whitespace for both `\s` (on `str`) and `str.strip()`. -/

def isPySpace (c : Char) : Bool :=
  let n := c.toNat
  decide ((0x09 ≤ n ∧ n ≤ 0x0d) ∨ (0x1c ≤ n ∧ n ≤ 0x1f) ∨ n = 0x20 ∨
    n = 0x85 ∨ n = 0xa0 ∨ n = 0x1680 ∨ (0x2000 ≤ n ∧ n ≤ 0x200a) ∨
    n = 0x2028 ∨ n = 0x2029 ∨ n = 0x202f ∨ n = 0x205f ∨ n = 0x3000)

/-- One left-to-right pass of `re.sub(r'\s+', ' ', ·)` over the character
list: a maximal run of whitespace characters is emitted as a single `' '`.
The flag records whether we are inside a whitespace run whose `' '` has
already been emitted. -/
def collapseWSAux : Bool → List Char → List Char
  | _, [] => []
  | inRun, c :: cs =>
    if isPySpace c then
      if inRun then collapseWSAux true cs
      else ' ' :: collapseWSAux true cs
    else c :: collapseWSAux false cs

/-- Model of `re.sub(r'\s+', ' ', ·)` on the character list: each maximal run of
whitespace characters becomes one `' '`. -/
def collapseWS (l : List Char) : List Char :=
  collapseWSAux false l

/-- Python `str.strip()`: drop whitespace from both ends. -/
def pyStrip (l : List Char) : List Char :=
  (((l.dropWhile isPySpace).reverse).dropWhile isPySpace).reverse

/-- The body of `DataProcessor.clean_text` on an actual string argument. -/
def cleanStr (s : String) : String :=
  if s = "" then "" else String.mk (pyStrip (collapseWS s.data))

/-- Model of `DataProcessor.clean_text` on a Python value that may be `None`
(`if not text: return ""` covers both `None` and `""`). -/
def clean_text : JValue → String
  | .null => ""
  | .str s => cleanStr s

/-! ## `hashlib.sha256(...).hexdigest()` (FIPS 180-4 SHA-256)

`DataProcessor.generate_article_id` (src/data_processor.py lines 14-27)
calls the standard library's SHA-256; we embed that algorithm directly,
on byte lists (`Nat` values `< 256`), with 32-bit words as `Nat` reduced
`% 2^32`. -/

/-- Chunk splitting on explicit fuel; when `0 < size`, every step consumes
at least one element, so `fuel = l.length` (as used by `chunksOf`) never
reaches the fuel-exhausted row. -/
def chunksOfF : Nat → Nat → List α → List (List α)
  | _, _, [] => []
  | 0, _, l => [l]
  | fuel + 1, size, x :: xs =>
    if size = 0 then [x :: xs]
    else (x :: xs).take size :: chunksOfF fuel size ((x :: xs).drop size)

/-- Split a list into consecutive chunks of `size` elements (the last chunk
may be shorter).  For `size = 0` (where Python's `range(0, n, 0)` would
raise) we return the whole list as one chunk; every use below has
`0 < size`. -/
def chunksOf (size : Nat) (l : List α) : List (List α) :=
  chunksOfF l.length size l

/-- Big-endian rendering of `v` on `n` bytes. -/
def beBytes (n : Nat) (v : Nat) : List Nat :=
  (List.range n).reverse.map (fun i => (v >>> (8 * i)) % 256)

/-- Big-endian 32-bit word from a list of bytes. -/
def word32OfBytes (b : List Nat) : Nat :=
  b.foldl (fun acc x => acc * 256 + x) 0

/-- Rotate the 32-bit word `x` right by `n` positions. -/
def rotr32 (n x : Nat) : Nat :=
  ((x >>> n) ||| (x <<< (32 - n))) % 2 ^ 32

def bsig0 (x : Nat) : Nat := rotr32 2 x ^^^ rotr32 13 x ^^^ rotr32 22 x

def bsig1 (x : Nat) : Nat := rotr32 6 x ^^^ rotr32 11 x ^^^ rotr32 25 x

def ssig0 (x : Nat) : Nat := rotr32 7 x ^^^ rotr32 18 x ^^^ (x >>> 3)

def ssig1 (x : Nat) : Nat := rotr32 17 x ^^^ rotr32 19 x ^^^ (x >>> 10)

def shaCh (x y z : Nat) : Nat := (x &&& y) ^^^ ((x ^^^ 0xffffffff) &&& z)

def shaMaj (x y z : Nat) : Nat := (x &&& y) ^^^ (x &&& z) ^^^ (y &&& z)

/-- The 64 SHA-256 round constants of FIPS 180-4 (written in decimal). -/
def K256 : List Nat :=
  [1116352408, 1899447441, 3049323471, 3921009573, 961987163,
   1508970993, 2453635748, 2870763221, 3624381080, 310598401,
   607225278, 1426881987, 1925078388, 2162078206, 2614888103,
   3248222580, 3835390401, 4022224774, 264347078, 604807628,
   770255983, 1249150122, 1555081692, 1996064986, 2554220882,
   2821834349, 2952996808, 3210313671, 3336571891, 3584528711,
   113926993, 338241895, 666307205, 773529912, 1294757372,
   1396182291, 1695183700, 1986661051, 2177026350, 2456956037,
   2730485921, 2820302411, 3259730800, 3345764771, 3516065817,
   3600352804, 4094571909, 275423344, 430227734, 506948616,
   659060556, 883997877, 958139571, 1322822218, 1537002063,
   1747873779, 1955562222, 2024104815, 2227730452, 2361852424,
   2428436474, 2756734187, 3204031479, 3329325298]

/-- The initial hash value of SHA-256 (written in decimal). -/
def H256 : List Nat :=
  [1779033703, 3144134277, 1013904242, 2773480762,
   1359893119, 2600822924, 528734635, 1541459225]

/-- One step of the message-schedule extension: append
`ssig1 W[t-2] + W[t-7] + ssig0 W[t-15] + W[t-16]  (mod 2^32)`. -/
def stepW (ws : List Nat) : List Nat :=
  let t := ws.length
  ws ++ [(ssig1 (ws.getD (t - 2) 0) + ws.getD (t - 7) 0 +
          ssig0 (ws.getD (t - 15) 0) + ws.getD (t - 16) 0) % 2 ^ 32]

/-- Iterate `stepW`. -/
def extendW : Nat → List Nat → List Nat
  | 0, ws => ws
  | n + 1, ws => extendW n (stepW ws)

/-- The eight SHA-256 working variables. -/
structure SHAState where
  a : Nat
  b : Nat
  c : Nat
  d : Nat
  e : Nat
  f : Nat
  g : Nat
  h : Nat
  deriving Repr

/-- One compression round, consuming one `(K[t], W[t])` pair. -/
def compressStep (st : SHAState) (kw : Nat × Nat) : SHAState :=
  let t1 := (st.h + bsig1 st.e + shaCh st.e st.f st.g + kw.1 + kw.2) % 2 ^ 32
  let t2 := (bsig0 st.a + shaMaj st.a st.b st.c) % 2 ^ 32
  { a := (t1 + t2) % 2 ^ 32, b := st.a, c := st.b, d := st.c,
    e := (st.d + t1) % 2 ^ 32, f := st.e, g := st.f, h := st.g }

/-- Process one 16-word block, updating the running hash. -/
def compressBlock (H : List Nat) (block : List Nat) : List Nat :=
  let W := extendW 48 block
  let st0 : SHAState :=
    { a := H.getD 0 0, b := H.getD 1 0, c := H.getD 2 0, d := H.getD 3 0,
      e := H.getD 4 0, f := H.getD 5 0, g := H.getD 6 0, h := H.getD 7 0 }
  let st := (K256.zip W).foldl compressStep st0
  [(H.getD 0 0 + st.a) % 2 ^ 32, (H.getD 1 0 + st.b) % 2 ^ 32,
   (H.getD 2 0 + st.c) % 2 ^ 32, (H.getD 3 0 + st.d) % 2 ^ 32,
   (H.getD 4 0 + st.e) % 2 ^ 32, (H.getD 5 0 + st.f) % 2 ^ 32,
   (H.getD 6 0 + st.g) % 2 ^ 32, (H.getD 7 0 + st.h) % 2 ^ 32]

/-- SHA-256 padding: `0x80`, zeros to 56 mod 64, then the bit length as
8 big-endian bytes. -/
def padBytes (msg : List Nat) : List Nat :=
  let L := msg.length
  let k := (119 - L % 64) % 64
  msg ++ 0x80 :: List.replicate k 0 ++ beBytes 8 (8 * L)

/-- SHA-256 of a byte list, as a 32-byte list. -/
def sha256 (msg : List Nat) : List Nat :=
  let blocks := (chunksOf 64 (padBytes msg)).map
    (fun blk => (chunksOf 4 blk).map word32OfBytes)
  (blocks.foldl compressBlock H256).flatMap (beBytes 4)

/-- Lower-case hex digit. -/
def hexChar (n : Nat) : Char :=
  if n < 10 then Char.ofNat (48 + n) else Char.ofNat (87 + n)

/-- Two-character hex rendering of one byte. -/
def byteHex (b : Nat) : List Char := [hexChar (b / 16), hexChar (b % 16)]

/-- UTF-8 encoding of one character (Python `str.encode()`). -/
def utf8Bytes (c : Char) : List Nat :=
  let n := c.toNat
  if n < 0x80 then [n]
  else if n < 0x800 then [0xc0 + (n >>> 6), 0x80 + n % 64]
  else if n < 0x10000 then
    [0xe0 + (n >>> 12), 0x80 + (n >>> 6) % 64, 0x80 + n % 64]
  else
    [0xf0 + (n >>> 18), 0x80 + (n >>> 12) % 64, 0x80 + (n >>> 6) % 64,
     0x80 + n % 64]

/-- Python `s.encode()`: UTF-8 bytes of a string. -/
def strBytes (s : String) : List Nat := s.data.flatMap utf8Bytes

/-- Model of `hashlib.sha256(s.encode()).hexdigest()`. -/
def sha256hex (s : String) : String :=
  String.mk ((sha256 (strBytes s)).flatMap byteHex)

/-! ## `DataProcessor.generate_article_id` (src/data_processor.py lines 14-27)

```python
combined = f"{url}:{title}"
return hashlib.sha256(combined.encode()).hexdigest()
```
-/

def generate_article_id (url title : String) : String :=
  sha256hex (url ++ ":" ++ title)

/-! ## Raw and processed articles

A raw NewsAPI article is a JSON object.  The fields the processor touches
are strings or `null`, except `source`, which is an object (or `null`).
`Option` models key absence.  -/

/-- The value under the `"source"` key: `null`, or an object whose `"name"`
entry (if present) is a string or `null`. -/
inductive SourceVal : Type
  | null : SourceVal
  | dict (name : Option JValue) : SourceVal
  deriving DecidableEq, Repr

structure RawArticle where
  url : Option JValue
  title : Option JValue
  source : Option SourceVal
  content : Option JValue
  description : Option JValue
  publishedAt : Option JValue
  author : Option JValue
  deriving DecidableEq, Repr

/-- The dictionary built by `DataProcessor.process_article`.  `ingested_at`
is the wall-clock reading, passed in as a parameter below. -/
structure ProcessedArticle where
  article_id : String
  source_name : String
  title : String
  content : String
  url : String
  author : String
  published_at : Option String
  ingested_at : String
  deriving DecidableEq, Repr

/-! ## `DataProcessor.extract_content` (src/data_processor.py lines 71-85)

```python
content = article.get("content", "")
if not content or content == "[Removed]":
    content = article.get("description", "")
return content
```

The returned Python value is a `str` or `None` (when the fallback key holds
`null`), hence the `JValue` return type. -/

def extract_content (a : RawArticle) : JValue :=
  let content := a.content.getD (.str "")
  if !content.truthy || content = .str "[Removed]" then
    a.description.getD (.str "")
  else content

/-! ## `DataProcessor.parse_datetime` (src/data_processor.py lines 49-69)

```python
if not date_string:
    return None
try:
    dt = datetime.fromisoformat(date_string.replace('Z', '+00:00'))
    return dt.isoformat()
except (ValueError, AttributeError):
    return None
```

`datetime.fromisoformat`/`isoformat` belong to the standard library, an
external boundary of the processor; the composite `isoformat ∘
fromisoformat` is passed in as `isoParse` (`none` models a `ValueError`). -/

def parse_datetime (isoParse : String → Option String) :
    Option JValue → Option String
  | none => none
  | some .null => none
  | some (.str s) =>
    if s = "" then none else isoParse (s.replace "Z" "+00:00")

/-! ## `DataProcessor.process_article` (src/data_processor.py lines 87-145)

Parameters beyond the raw article: `isoParse` as above and `now`, the
`datetime.utcnow().isoformat()` reading taken while processing this
article.  A `"source"` key holding `null` makes `source.get("name", ...)`
raise `AttributeError`, which the enclosing `except Exception` turns into
a rejection (`None`). -/

def process_article (isoParse : String → Option String) (now : String)
    (a : RawArticle) : Option ProcessedArticle :=
  let url := a.url.getD (.str "")
  let title := a.title.getD (.str "")
  if !url.truthy || !title.truthy then none
  else
    match a.source.getD (.dict none) with
    | .null => none
    | .dict nameField =>
      let source_name := nameField.getD (.str "Unknown")
      let content := clean_text (extract_content a)
      let urlS := url.strOrEmpty
      let titleS := title.strOrEmpty
      let author := a.author.getD (.str "Unknown")
      let processed : ProcessedArticle :=
        { article_id := generate_article_id urlS titleS,
          source_name := clean_text source_name,
          title := cleanStr titleS,
          content := content,
          url := urlS,
          author := if author.truthy then clean_text author else "Unknown",
          published_at := parse_datetime isoParse a.publishedAt,
          ingested_at := now }
      if processed.article_id = "" || processed.title = "" then none
      else some processed

/-! ## `DataProcessor.process_articles` (src/data_processor.py lines 147-165)

```python
processed = []
for article in articles:
    processed_article = cls.process_article(article)
    if processed_article:
        processed.append(processed_article)
return processed
```
-/

def process_articles (isoParse : String → Option String) (now : String)
    (articles : List RawArticle) : List ProcessedArticle :=
  articles.foldl
    (fun acc a =>
      match process_article isoParse now a with
      | some p => acc ++ [p]
      | none => acc)
    []

/-! ## `Scheduler.run_periodic` (src/scheduler.py lines 22-56)

```python
self.running = True
iteration = 0
while self.running:
    try:
        iteration += 1
        task()
        if max_iterations and iteration >= max_iterations:
            break
        time.sleep(self.interval_seconds)
    except KeyboardInterrupt:
        self.running = False
        break
    except Exception as e:
        time.sleep(self.interval_seconds)
```

The task's behaviour on its `n`-th invocation is a parameter: it returns
normally, raises an ordinary `Exception`, or raises `KeyboardInterrupt`.
The loop has no intrinsic bound, so it is run on explicit fuel: `some n`
means the loop terminated after executing the task `n` times, `none` means
it was still running when the fuel ran out. -/

inductive TaskOutcome : Type
  | ok : TaskOutcome
  | raises : TaskOutcome
  | interrupt : TaskOutcome
  deriving DecidableEq, Repr

/-- Python `if max_iterations and iteration >= max_iterations`
(`None` and `0` are both falsy). -/
def maxIterReached (maxIterations : Option Nat) (iteration : Nat) : Bool :=
  match maxIterations with
  | none => false
  | some m => m ≠ 0 && iteration ≥ m

def run_periodic (task : Nat → TaskOutcome) (maxIterations : Option Nat) :
    Nat → Nat → Option Nat
  | 0, _ => none
  | fuel + 1, iteration =>
    let iteration := iteration + 1
    match task iteration with
    | .interrupt => some iteration
    | .raises => run_periodic task maxIterations fuel iteration
    | .ok =>
      if maxIterReached maxIterations iteration then some iteration
      else run_periodic task maxIterations fuel iteration

/-! ## `KinesisWriter` (src/kinesis_writer.py)

The Kinesis SDK is the external boundary.  A `put_records` call on a chunk
either returns a response — whose observables are `len(response["Records"])`
and `response.get("FailedRecordCount", 0)` — or raises (`ClientError` or
any other exception, both handled identically by the source). -/

inductive BatchResponse : Type
  | ok (recordsLen : Nat) (failedCount : Nat) : BatchResponse
  | err : BatchResponse
  deriving DecidableEq, Repr

/-- Model of `KinesisWriter._put_records_batch` (src/kinesis_writer.py lines 75-124):
counts are Python ints, so `Int` (`success_count = len(successful) -
failed_count` may in principle go negative). -/
def put_records_batch (records : List ProcessedArticle)
    (resp : BatchResponse) : Int × Int :=
  if records = [] then (0, 0)
  else
    match resp with
    | .ok recordsLen failedCount =>
      ((recordsLen : Int) - (failedCount : Int), (failedCount : Int))
    | .err => (0, (records.length : Int))

/-- The chunk loop of `write_articles` (lines 144-157): the `i`-th chunk is
answered by `resp i`. -/
def writeBatches (resp : Nat → BatchResponse) :
    Nat → List (List ProcessedArticle) → Int × Int
  | _, [] => (0, 0)
  | i, c :: cs =>
    let r := put_records_batch c (resp i)
    let rest := writeBatches resp (i + 1) cs
    (r.1 + rest.1, r.2 + rest.2)

/-- The single-record loop of `write_articles` (lines 159-172):
`respSingle i` is the boolean result of `_put_record` on the `i`-th
record. -/
def writeSingles (respSingle : Nat → Bool) :
    Nat → List ProcessedArticle → Int × Int
  | _, [] => (0, 0)
  | i, _ :: rest =>
    let r := writeSingles respSingle (i + 1) rest
    if respSingle i then (r.1 + 1, r.2) else (r.1, r.2 + 1)

/-- Model of `KinesisWriter.write_articles` (src/kinesis_writer.py lines 126-172).
`articles[i:i+batch_size]` slicing over `range(0, len, batch_size)` is
exactly `chunksOf batchSize`. -/
def write_articles (batchSize : Nat) (resp : Nat → BatchResponse)
    (respSingle : Nat → Bool) (articles : List ProcessedArticle)
    (useBatching : Bool) : Int × Int :=
  if articles = [] then (0, 0)
  else if useBatching && articles.length > 1 then
    writeBatches resp 0 (chunksOf batchSize articles)
  else writeSingles respSingle 0 articles

/-! ## `NewsAPIClient.fetch_all_articles` (src/newsapi_client.py lines 83-143)

`fetch_articles` (lines 23-81) performs the HTTP request; its observable
outcome for the pagination loop is either the response data after the
`getD` defaults — the `articles` list and `totalResults` — or an
exception (network error, non-2xx, timeout, or an API payload with
`status == "error"`; all reach the same `except` clause).  `api page`
is that outcome for the request of page `page`.

The loop is unbounded for adversarial `api` functions, so it runs on
explicit fuel; `some (records, pages)` means the loop terminated with
`records` accumulated after requesting exactly the pages in `pages`
(in order); `none` means the fuel ran out first.  With
`pageSize = 0` Python raises `ZeroDivisionError` on
`(total_results + page_size - 1) // page_size`, caught by the same
`except` → `break`; Lean's `/ 0 = 0` makes `page ≥ totalPages` true, the
same observable stop-with-accumulated-records. -/

inductive FetchResult : Type
  | ok (articles : List RawArticle) (totalResults : Nat) : FetchResult
  | err : FetchResult
  deriving DecidableEq, Repr

/-- Python `if max_pages and page >= max_pages`. -/
def mpReached (maxPages : Option Nat) (page : Nat) : Bool :=
  match maxPages with
  | none => false
  | some m => m ≠ 0 && page ≥ m

def fetchAllAux (api : Nat → FetchResult) (pageSize : Nat)
    (maxPages : Option Nat) :
    Nat → Nat → List RawArticle → List Nat →
    Option (List RawArticle × List Nat)
  | 0, _, _, _ => none
  | fuel + 1, page, acc, trace =>
    let trace := trace ++ [page]
    match api page with
    | .err => some (acc, trace)
    | .ok articles total =>
      if articles.isEmpty then some (acc, trace)
      else
        let acc := acc ++ articles
        let totalPages := (total + pageSize - 1) / pageSize
        if page ≥ totalPages then some (acc, trace)
        else if mpReached maxPages page then some (acc, trace)
        else fetchAllAux api pageSize maxPages fuel (page + 1) acc trace

def fetch_all_articles (api : Nat → FetchResult) (pageSize : Nat)
    (maxPages : Option Nat) (fuel : Nat) :
    Option (List RawArticle × List Nat) :=
  fetchAllAux api pageSize maxPages fuel 1 [] []

/-! ## Spec-side accounting for the Writer and Fetcher claims -/

/-- The failure count the stream reports across the single-record loop:
one per record whose `_put_record` returned `False`. -/
def singleFailures (respSingle : Nat → Bool) :
    Nat → List ProcessedArticle → Nat
  | _, [] => 0
  | i, _ :: rest =>
    (if respSingle i then 0 else 1) + singleFailures respSingle (i + 1) rest

/-- The failure count the stream reports across the chunk loop: the
response's `FailedRecordCount` for an answered chunk, the whole chunk
size for a raised exception. -/
def chunkFailures (resp : Nat → BatchResponse) :
    Nat → List (List ProcessedArticle) → Nat
  | _, [] => 0
  | i, c :: cs =>
    (match resp i with
     | .ok _ f => f
     | .err => c.length) + chunkFailures resp (i + 1) cs

/-- Total number of record failures the stream reports during
`write_articles · true` — the `K` of the claim. -/
def deliveryFailures (batchSize : Nat) (resp : Nat → BatchResponse)
    (respSingle : Nat → Bool) (articles : List ProcessedArticle) : Nat :=
  if articles.length > 1 then
    chunkFailures resp 0 (chunksOf batchSize articles)
  else singleFailures respSingle 0 articles

/-- The articles carried by a fetch outcome. -/
def artsOf : FetchResult → List RawArticle
  | .ok arts _ => arts
  | .err => []

/-- Page `p`'s response lets the pagination loop continue: the request
succeeded, returned a non-empty list, `p` is below the computed
total-page count, and `max_pages` has not been reached. -/
def continuesAt (api : Nat → FetchResult) (pageSize : Nat)
    (maxPages : Option Nat) (p : Nat) : Prop :=
  match api p with
  | .err => False
  | .ok arts total =>
    arts ≠ [] ∧ p < (total + pageSize - 1) / pageSize ∧
      mpReached maxPages p = false

/-! ## Concrete records used in witnesses and counterexamples -/

def c4art : ProcessedArticle :=
  { article_id := "k", source_name := "s", title := "t", content := "c",
    url := "u", author := "a", published_at := none, ingested_at := "n" }

/-- A stream answering the first chunk with 1 failed record out of 2, the
second chunk with 0 failed out of 1, and raising beyond that. -/
def c4resp : Nat → BatchResponse := fun j =>
  if j = 0 then .ok 2 1 else if j = 1 then .ok 1 0 else .err

def c5raw : RawArticle :=
  { url := some (.str "u"), title := some (.str "t"), source := none,
    content := none, description := none, publishedAt := none,
    author := none }

/-- An API reporting `totalResults = 250` and serving 100, 100, 50 records
on pages 1, 2, 3. -/
def c5api : Nat → FetchResult := fun p =>
  if p ≤ 2 then .ok (List.replicate 100 c5raw) 250
  else if p = 3 then .ok (List.replicate 50 c5raw) 250
  else .ok [] 250

/-- An API whose page 1 succeeds and whose page 2 fails. -/
def c6api : Nat → FetchResult := fun p =>
  if p = 1 then .ok [c5raw] 300 else .err


def c7rec : RawArticle :=
  { url := some (.str "u"), title := some (.str "t"), source := none,
    content := none, description := none, publishedAt := none,
    author := none }

def c7out : ProcessedArticle :=
  { article_id :=
      "50f438d7b441d03825f76ff2c88f3b189d706c69adebd5ba3d8999cf6deaa094",
    source_name := "Unknown", title := "t", content := "", url := "u",
    author := "Unknown", published_at := none, ingested_at := "T" }

/-- The spec's C8 scenario record. -/
def c8rec : RawArticle :=
  { url := some (.str "http://x/1"), title := some (.str "Hi"),
    source := none, content := some (.str "[Removed]"),
    description := some (.str "Fallback text"), publishedAt := none,
    author := none }

def c8rec2 : RawArticle :=
  { url := some (.str "http://x/1"), title := some (.str "Hi"),
    source := none, content := some (.str "body text"),
    description := some (.str "ignored"), publishedAt := none,
    author := none }

/-- A record accepted by `process_article` whose raw `author` is the
whitespace-only string `" "` and whose raw source `name` is `""`. -/
def c3rec : RawArticle :=
  { url := some (.str "http://x/1"), title := some (.str "Hi"),
    source := some (.dict (some (.str ""))), content := none,
    description := none, publishedAt := none,
    author := some (.str " ") }

def c3wrec : RawArticle :=
  { url := some (.str "http://x/2"), title := some (.str "Hey"),
    source := none, content := none, description := none,
    publishedAt := none, author := some (.str " ") }

def c3wout : ProcessedArticle :=
  { article_id :=
      "7014037c71ac71cb720938ffa8b6b5bad582c6308a742bcf7f8bcb6a0d70bd05",
    source_name := "Unknown", title := "Hey", content := "",
    url := "http://x/2", author := "", published_at := none,
    ingested_at := "T" }

/-! # Lemmas about text cleaning -/

/-- Invariant of collapsed text: every whitespace character is a plain
`' '`, and no two adjacent characters are both `' '`. -/
def FlatWS (l : List Char) : Prop :=
  (∀ c ∈ l, isPySpace c = true → c = ' ') ∧
  l.Chain' (fun a b => ¬(a = ' ' ∧ b = ' '))

lemma head?_dropWhile_false (p : α → Bool) (l : List α) :
    ∀ c, (l.dropWhile p).head? = some c → p c = false := by
  intro c hc
  have h := List.head?_dropWhile_not p l
  rw [hc] at h
  exact h

lemma collapseWSAux_true_head (l : List Char) :
    ∀ c, (collapseWSAux true l).head? = some c → isPySpace c = false := by
  induction l with
  | nil => intro c hc; simp [collapseWSAux] at hc
  | cons d ds ih =>
    intro c hc
    by_cases hd : isPySpace d
    · simp only [collapseWSAux, hd, if_true] at hc
      exact ih c hc
    · have hd' : isPySpace d = false := by simpa using hd
      simp only [collapseWSAux, hd', Bool.false_eq_true, if_false,
        List.head?_cons, Option.some.injEq] at hc
      rw [← hc]
      exact hd'

lemma flatWS_collapseWSAux (l : List Char) :
    ∀ b : Bool, FlatWS (collapseWSAux b l) := by
  induction l with
  | nil =>
    intro b
    exact ⟨by simp [collapseWSAux], by simp [collapseWSAux]⟩
  | cons d ds ih =>
    intro b
    by_cases hd : isPySpace d
    · cases b with
      | true => simpa only [collapseWSAux, hd, if_true] using ih true
      | false =>
        simp only [collapseWSAux, hd, if_true, Bool.false_eq_true, if_false]
        refine ⟨?_, ?_⟩
        · intro c hc hsp
          rcases List.mem_cons.mp hc with h | h
          · exact h
          · exact (ih true).1 c h hsp
        · rw [List.chain'_cons']
          refine ⟨?_, (ih true).2⟩
          intro y hy hcontra
          have hns := collapseWSAux_true_head ds y hy
          rw [hcontra.2] at hns
          exact absurd hns (by decide)
    · have hd' : isPySpace d = false := by simpa using hd
      simp only [collapseWSAux, hd', Bool.false_eq_true, if_false]
      refine ⟨?_, ?_⟩
      · intro c hc hsp
        rcases List.mem_cons.mp hc with h | h
        · rw [h] at hsp
          exact absurd hsp (by simp [hd'])
        · exact (ih false).1 c h hsp
      · rw [List.chain'_cons']
        refine ⟨?_, (ih false).2⟩
        intro y hy hcontra
        rw [hcontra.1] at hd'
        exact absurd hd' (by decide)

lemma flatWS_collapseWS (l : List Char) : FlatWS (collapseWS l) :=
  flatWS_collapseWSAux l false

lemma collapseWSAux_true_eq_false (l : List Char)
    (h : ∀ c, l.head? = some c → isPySpace c = false) :
    collapseWSAux true l = collapseWSAux false l := by
  cases l with
  | nil => rfl
  | cons d ds => simp [collapseWSAux, h d rfl]

lemma collapseWS_eq_self : ∀ l : List Char, FlatWS l → collapseWS l = l := by
  intro l
  unfold collapseWS
  induction l with
  | nil => intro _; rfl
  | cons c cs ih =>
    intro h
    have hcs : FlatWS cs :=
      ⟨fun x hx hs => h.1 x (List.mem_cons_of_mem _ hx) hs, h.2.tail⟩
    by_cases hc : isPySpace c
    · have hc' : c = ' ' := h.1 c (List.mem_cons_self _ _) hc
      have hhead : ∀ x, cs.head? = some x → isPySpace x = false := by
        intro x hx
        cases cs with
        | nil => simp at hx
        | cons d ds =>
          simp only [List.head?_cons, Option.some.injEq] at hx
          by_contra hxs
          have hxs' : isPySpace x = true := by simpa using hxs
          rw [← hx] at hxs'
          have hd' : d = ' ' := h.1 d (by simp) hxs'
          exact (List.chain'_cons.mp h.2).1 ⟨hc', hd'⟩
      simp only [collapseWSAux, hc, if_true, Bool.false_eq_true, if_false]
      rw [collapseWSAux_true_eq_false cs hhead, ih hcs, hc']
    · have hc' : isPySpace c = false := by simpa using hc
      simp only [collapseWSAux, hc', Bool.false_eq_true, if_false]
      rw [ih hcs]

lemma flatWS_suffix {l l' : List Char} (h : FlatWS l) (hs : l' <:+ l) :
    FlatWS l' :=
  ⟨fun c hc hsp => h.1 c (hs.subset hc) hsp, h.2.suffix hs⟩

lemma flatWS_reverse {l : List Char} (h : FlatWS l) : FlatWS l.reverse := by
  refine ⟨fun c hc hsp => h.1 c (List.mem_reverse.mp hc) hsp, ?_⟩
  rw [List.chain'_reverse]
  exact h.2.imp fun a b hab hba => hab ⟨hba.2, hba.1⟩

lemma flatWS_pyStrip {l : List Char} (h : FlatWS l) : FlatWS (pyStrip l) :=
  flatWS_reverse (flatWS_suffix
    (flatWS_reverse (flatWS_suffix h (List.dropWhile_suffix _)))
    (List.dropWhile_suffix _))

lemma dropWhile_eq_self_of_head (p : α → Bool) (l : List α)
    (h : ∀ c, l.head? = some c → p c = false) : l.dropWhile p = l := by
  cases l with
  | nil => rfl
  | cons d ds => rw [List.dropWhile_cons_of_neg (by simp [h d rfl])]

lemma dropWhile_dropWhile (p : α → Bool) (l : List α) :
    (l.dropWhile p).dropWhile p = l.dropWhile p :=
  dropWhile_eq_self_of_head p _ (head?_dropWhile_false p l)

lemma pyStrip_head_not_space (l : List Char) :
    ∀ c, (pyStrip l).head? = some c → isPySpace c = false := by
  intro c hc
  unfold pyStrip at hc
  rw [List.head?_reverse] at hc
  obtain ⟨t, ht⟩ :=
    List.dropWhile_suffix (l := (l.dropWhile isPySpace).reverse) isPySpace
  have h2 : ((l.dropWhile isPySpace).reverse).getLast? = some c := by
    rw [← ht, List.getLast?_append, hc]
    rfl
  rw [List.getLast?_reverse] at h2
  exact head?_dropWhile_false isPySpace l c h2

lemma pyStrip_getLast_not_space (l : List Char) :
    ∀ c, (pyStrip l).getLast? = some c → isPySpace c = false := by
  intro c hc
  unfold pyStrip at hc
  rw [List.getLast?_reverse] at hc
  exact head?_dropWhile_false _ _ c hc

lemma pyStrip_idem (l : List Char) : pyStrip (pyStrip l) = pyStrip l := by
  have unf : ∀ x : List Char,
      pyStrip x = ((x.dropWhile isPySpace).reverse.dropWhile isPySpace).reverse :=
    fun _ => rfl
  have key : (pyStrip l).dropWhile isPySpace = pyStrip l :=
    dropWhile_eq_self_of_head _ _ (pyStrip_head_not_space l)
  rw [unf (pyStrip l), key, unf l, List.reverse_reverse, dropWhile_dropWhile]

lemma cleanStr_data (s : String) (h : s ≠ "") :
    (cleanStr s).data = pyStrip (collapseWS s.data) := by
  rw [cleanStr, if_neg h]

lemma cleanStr_idem (s : String) : cleanStr (cleanStr s) = cleanStr s := by
  by_cases hs : s = ""
  · subst hs; rfl
  · rw [show cleanStr s = String.mk (pyStrip (collapseWS s.data)) from by
      rw [cleanStr, if_neg hs]]
    by_cases hme : String.mk (pyStrip (collapseWS s.data)) = ""
    · rw [hme]
      rfl
    · rw [cleanStr, if_neg hme]
      have hd : (String.mk (pyStrip (collapseWS s.data))).data
          = pyStrip (collapseWS s.data) := rfl
      rw [hd,
        collapseWS_eq_self _ (flatWS_pyStrip (flatWS_collapseWS s.data)),
        pyStrip_idem]

lemma flatWS_cleanStr (s : String) : FlatWS (cleanStr s).data := by
  by_cases hs : s = ""
  · subst hs
    rw [show (cleanStr "").data = [] from rfl]
    exact ⟨by simp, List.chain'_nil⟩
  · rw [cleanStr_data s hs]
    exact flatWS_pyStrip (flatWS_collapseWS s.data)

lemma cleanStr_trimmed (s : String) :
    ∀ c, ((cleanStr s).data.head? = some c → isPySpace c = false) ∧
      ((cleanStr s).data.getLast? = some c → isPySpace c = false) := by
  intro c
  by_cases hs : s = ""
  · subst hs
    rw [show (cleanStr "").data = [] from rfl]
    exact ⟨by intro h; simp at h, by intro h; simp at h⟩
  · rw [cleanStr_data s hs]
    exact ⟨pyStrip_head_not_space _ c, pyStrip_getLast_not_space _ c⟩

/-! # Claim theorems -/

/-- C9: the text-cleaning function is idempotent — `clean (clean x) =
clean x` for every string `x`; every cleaned string is whitespace-flat
(each whitespace character is a single `' '`, no two adjacent) with no
leading or trailing whitespace; and `"a   b\tc"` cleans to `"a b c"`. -/
theorem C9_clean_text_idempotent :
    (∀ x : String, cleanStr (cleanStr x) = cleanStr x) ∧
    (∀ x : String, FlatWS (cleanStr x).data ∧
      ∀ c, ((cleanStr x).data.head? = some c → isPySpace c = false) ∧
        ((cleanStr x).data.getLast? = some c → isPySpace c = false)) ∧
    cleanStr "a   b\tc" = "a b c" :=
  ⟨cleanStr_idem, fun x => ⟨flatWS_cleanStr x, cleanStr_trimmed x⟩, by decide⟩

/-- C1 counterexample: the distinct pairs `("a:b", "c")` and
`("a", "b:c")` join (with the `":"` separator of
`generate_article_id`) to the same string `"a:b:c"`, so their derived
ids are identical — "for every two distinct (url, title) pairs the
derived ids differ" is false. -/
theorem C1_counterexample_id_collision :
    (("a:b", "c") ≠ (("a" : String), ("b:c" : String))) ∧
    generate_article_id "a:b" "c" = generate_article_id "a" "b:c" :=
  ⟨by decide, rfl⟩

/-- C1 (amended): the derived id is a pure deterministic function of the
joined string `url ++ ":" ++ title` — identical `(url, title)` pairs
always get identical ids, but two distinct pairs whose joined strings
coincide get the same id. -/
theorem C1_amended_id_function_of_joined_string :
    ∀ u t u' t' : String, u ++ ":" ++ t = u' ++ ":" ++ t' →
      generate_article_id u t = generate_article_id u' t' := by
  intro u t u' t' h
  unfold generate_article_id
  rw [h]

theorem C1_amended_witness :
    generate_article_id "x:y" "z" = generate_article_id "x" "y:z" :=
  C1_amended_id_function_of_joined_string "x:y" "z" "x" "y:z" rfl

/-- C2 (the code evaluated at the spec's scenario): with
`max_iterations = 2` and a task that returns normally on every call,
`run_periodic` executes the task exactly 2 times and stops; but with a
task that raises an `Exception` on every call, the `max_iterations`
check (which sits after `task()` inside the `try`) is never reached, and
the loop never terminates — it exhausts any amount of fuel. -/
theorem C2_scheduler_max_iterations_skipped_on_exception :
    run_periodic (fun _ => TaskOutcome.ok) (some 2) 10 0 = some 2 ∧
    ∀ fuel iteration : Nat,
      run_periodic (fun _ => TaskOutcome.raises) (some 2) fuel iteration
        = none := by
  refine ⟨rfl, ?_⟩
  intro fuel
  induction fuel with
  | zero => intro iteration; rfl
  | succ n ih => intro iteration; exact ih (iteration + 1)

lemma process_articles_foldl (isoParse : String → Option String)
    (now : String) :
    ∀ (l : List RawArticle) (acc : List ProcessedArticle),
      l.foldl
        (fun acc a =>
          match process_article isoParse now a with
          | some p => acc ++ [p]
          | none => acc)
        acc
        = acc ++ l.filterMap (process_article isoParse now) := by
  intro l
  induction l with
  | nil => intro acc; simp
  | cons a l ih =>
    intro acc
    cases h : process_article isoParse now a with
    | none => simp [h, ih]
    | some p => simp [h, ih]

/-- C10: `process_articles` returns exactly the accepted results of
`process_article` applied to each element, in the input's order
(`List.filterMap`); in particular the output is never longer than the
input. -/
theorem C10_process_articles_is_filterMap :
    ∀ (isoParse : String → Option String) (now : String)
      (articles : List RawArticle),
      process_articles isoParse now articles
        = articles.filterMap (process_article isoParse now) ∧
      (process_articles isoParse now articles).length ≤ articles.length := by
  intro isoParse now articles
  have heq : process_articles isoParse now articles
      = articles.filterMap (process_article isoParse now) := by
    unfold process_articles
    simpa using process_articles_foldl isoParse now articles []
  refine ⟨heq, ?_⟩
  rw [heq]
  exact List.length_filterMap_le _ _

/-- Characterisation of an accepted record: the raw `url` and `title`
must be non-empty strings, the `source` value must be a dict (or absent),
the defensive re-check must pass, and the produced record's fields are
exactly those built by the source code. -/
lemma process_article_some_spec (isoParse : String → Option String)
    (now : String) (a : RawArticle) (p : ProcessedArticle)
    (h : process_article isoParse now a = some p) :
    ∃ (us ts : String) (nameField : Option JValue),
      a.url.getD (JValue.str "") = JValue.str us ∧ us ≠ "" ∧
      a.title.getD (JValue.str "") = JValue.str ts ∧ ts ≠ "" ∧
      a.source.getD (SourceVal.dict none) = SourceVal.dict nameField ∧
      generate_article_id us ts ≠ "" ∧ cleanStr ts ≠ "" ∧
      p = { article_id := generate_article_id us ts,
            source_name := clean_text (nameField.getD (JValue.str "Unknown")),
            title := cleanStr ts,
            content := clean_text (extract_content a),
            url := us,
            author :=
              if (a.author.getD (JValue.str "Unknown")).truthy
              then clean_text (a.author.getD (JValue.str "Unknown"))
              else "Unknown",
            published_at := parse_datetime isoParse a.publishedAt,
            ingested_at := now } := by
  simp only [process_article] at h
  cases hvu : a.url.getD (JValue.str "") with
  | null => rw [hvu] at h; simp [JValue.truthy] at h
  | str us =>
    cases hvt : a.title.getD (JValue.str "") with
    | null => rw [hvt] at h; simp [JValue.truthy] at h
    | str ts =>
      rw [hvu, hvt] at h
      by_cases hus : us = ""
      · subst hus; simp [JValue.truthy] at h
      · by_cases hts : ts = ""
        · subst hts; simp [JValue.truthy] at h
        · rw [if_neg (by simp [JValue.truthy, hus, hts])] at h
          cases hsv : a.source.getD (SourceVal.dict none) with
          | null => rw [hsv] at h; exact absurd h (by simp)
          | dict nameField =>
            rw [hsv] at h
            simp only [JValue.strOrEmpty] at h
            by_cases hg : (decide (generate_article_id us ts = "")
                || decide (cleanStr ts = "")) = true
            · rw [if_pos hg] at h
              exact absurd h (by simp)
            · rw [if_neg hg] at h
              rw [Option.some.injEq] at h
              simp only [Bool.or_eq_true, not_or, Bool.not_eq_true,
                decide_eq_false_iff_not] at hg
              exact ⟨us, ts, nameField, rfl, hus, rfl, hts, rfl,
                hg.1, hg.2, h.symm⟩

/-- C7: whenever `process_article` accepts a raw record, the returned
record's `article_id`, `title` and `url` are non-empty strings. -/
theorem C7_accepted_record_required_fields_nonempty :
    ∀ (isoParse : String → Option String) (now : String) (a : RawArticle)
      (p : ProcessedArticle),
      process_article isoParse now a = some p →
      p.article_id ≠ "" ∧ p.title ≠ "" ∧ p.url ≠ "" := by
  intro isoParse now a p h
  obtain ⟨us, ts, nameField, _, hus, _, _, _, hid, hct, hp⟩ :=
    process_article_some_spec isoParse now a p h
  subst hp
  exact ⟨hid, hct, hus⟩

theorem C7_witness :
    process_article (fun _ => none) "T" c7rec = some c7out ∧
    (c7out.article_id ≠ "" ∧ c7out.title ≠ "" ∧ c7out.url ≠ "") :=
  ⟨by decide,
   C7_accepted_record_required_fields_nonempty (fun _ => none) "T" c7rec
     c7out (by decide)⟩

/-- C8: the body is taken from the raw `content` field; when that field is
absent, empty, or the literal `"[Removed]"`, it falls back to
`description`; the canonical `content` is always the cleaned
`extract_content` value (a string, never null), and it is `""` when both
fields are absent; the spec's scenario record yields body
`"Fallback text"`. -/
theorem C8_body_content_fallback :
    (∀ a : RawArticle,
      a.content = none ∨ a.content = some (JValue.str "") ∨
        a.content = some (JValue.str "[Removed]") →
      extract_content a = a.description.getD (JValue.str "")) ∧
    (∀ (a : RawArticle) (s : String),
      a.content = some (JValue.str s) → s ≠ "" → s ≠ "[Removed]" →
      extract_content a = JValue.str s) ∧
    (∀ (isoParse : String → Option String) (now : String) (a : RawArticle)
      (p : ProcessedArticle),
      process_article isoParse now a = some p →
      p.content = clean_text (extract_content a)) ∧
    (∀ a : RawArticle,
      a.content = none ∨ a.content = some (JValue.str "") ∨
        a.content = some (JValue.str "[Removed]") →
      a.description = none → clean_text (extract_content a) = "") ∧
    (process_article (fun _ => none) "T" c8rec).map (fun p => p.content)
      = some "Fallback text" := by
  refine ⟨?_, ?_, ?_, ?_, by decide⟩
  · intro a h
    rcases h with h | h | h <;> simp [extract_content, h, JValue.truthy]
  · intro a s h hs hrem
    simp [extract_content, h, JValue.truthy, hs, hrem]
  · intro isoParse now a p h
    obtain ⟨us, ts, nameField, _, _, _, _, _, _, _, hp⟩ :=
      process_article_some_spec isoParse now a p h
    subst hp
    rfl
  · intro a h hd
    have he : extract_content a = JValue.str "" := by
      rcases h with h | h | h <;>
        simp [extract_content, h, hd, JValue.truthy]
    rw [he]
    decide

theorem C8_witness :
    extract_content c8rec = c8rec.description.getD (JValue.str "") ∧
    extract_content c8rec2 = JValue.str "body text" :=
  ⟨C8_body_content_fallback.1 c8rec (Or.inr (Or.inr rfl)),
   C8_body_content_fallback.2.1 c8rec2 "body text" rfl (by decide)
     (by decide)⟩

/-- C3 counterexample: the raw `author` `" "` is empty after the
whitespace-cleaning step and the raw source name `""` is empty, yet the
accepted canonical record carries `author = ""` and `source_name = ""`,
not `"Unknown"`. -/
theorem C3_counterexample_empty_after_cleaning :
    cleanStr " " = "" ∧
    (process_article (fun _ => none) "T" c3rec).map
      (fun p => (p.author, p.source_name)) = some ("", "") ∧
    (("" : String), ("" : String)) ≠ ("Unknown", "Unknown") :=
  ⟨by decide, by decide, by decide⟩

/-- C3 (amended): `author` falls back to `"Unknown"` exactly when the raw
author field is absent, `null`, or the empty string — the falsiness check
happens before cleaning, so a whitespace-only author yields `""`;
`source_name` falls back to `"Unknown"` only when the source object or
its `name` key is absent, and otherwise is the cleaned raw name
(possibly empty). -/
theorem C3_amended_unknown_defaults :
    ∀ (isoParse : String → Option String) (now : String) (a : RawArticle)
      (p : ProcessedArticle),
      process_article isoParse now a = some p →
      ((a.author = none ∨ a.author = some JValue.null ∨
          a.author = some (JValue.str "") → p.author = "Unknown") ∧
       (∀ s, a.author = some (JValue.str s) → s ≠ "" →
          p.author = cleanStr s) ∧
       (a.source = none ∨ a.source = some (SourceVal.dict none) →
          p.source_name = "Unknown") ∧
       (∀ s, a.source = some (SourceVal.dict (some (JValue.str s))) →
          p.source_name = cleanStr s)) := by
  intro isoParse now a p h
  obtain ⟨us, ts, nameField, _, _, _, _, hsv, _, _, hp⟩ :=
    process_article_some_spec isoParse now a p h
  subst hp
  refine ⟨?_, ?_, ?_, ?_⟩
  · intro hau
    rcases hau with hau | hau | hau <;> rw [hau] <;>
      (simp [JValue.truthy, clean_text]; try decide)
  · intro s hs hsne
    rw [hs]
    simp [JValue.truthy, hsne, clean_text]
  · intro hsrc
    have hnf : nameField = none := by
      rcases hsrc with hsrc | hsrc <;> rw [hsrc] at hsv <;>
        simpa using hsv.symm
    subst hnf
    simp [clean_text]
    decide
  · intro s hs
    have hnf : nameField = some (JValue.str s) := by
      rw [hs] at hsv
      simpa using hsv.symm
    subst hnf
    simp [clean_text]

theorem C3_amended_witness :
    process_article (fun _ => none) "T" c3wrec = some c3wout ∧
    c3wout.author = cleanStr " " ∧ c3wout.source_name = "Unknown" := by
  have h : process_article (fun _ => none) "T" c3wrec = some c3wout := by
    decide
  have happ := C3_amended_unknown_defaults (fun _ => none) "T" c3wrec
    c3wout h
  exact ⟨h, happ.2.1 " " rfl (by decide), happ.2.2.1 (Or.inl rfl)⟩

lemma writeSingles_counts (respSingle : Nat → Bool) :
    ∀ (l : List ProcessedArticle) (i : Nat),
      writeSingles respSingle i l
        = ((l.length : Int) - (singleFailures respSingle i l : Int),
           (singleFailures respSingle i l : Int)) := by
  intro l
  induction l with
  | nil => intro i; rfl
  | cons a l ih =>
    intro i
    simp only [writeSingles, singleFailures, ih (i + 1)]
    by_cases h : respSingle i
    · simp [h, Prod.ext_iff]
      omega
    · simp [h, Prod.ext_iff]
      constructor <;> omega

lemma writeBatches_counts (resp : Nat → BatchResponse) :
    ∀ (chunks : List (List ProcessedArticle)) (i : Nat),
      (∀ j len f, resp (i + j) = .ok len f →
        len = (chunks.getD j []).length) →
      (∀ c ∈ chunks, c ≠ []) →
      writeBatches resp i chunks
        = (((chunks.map List.length).sum : Int)
             - (chunkFailures resp i chunks : Int),
           (chunkFailures resp i chunks : Int)) := by
  intro chunks
  induction chunks with
  | nil => intro i _ _; rfl
  | cons c cs ih =>
    intro i hresp hne
    have hresp' : ∀ j len f, resp (i + 1 + j) = .ok len f →
        len = (cs.getD j []).length := by
      intro j len f h
      have := hresp (j + 1) len f
        (by rwa [show i + (j + 1) = i + 1 + j by omega])
      simpa using this
    have hih := ih (i + 1) hresp'
      (fun x hx => hne x (List.mem_cons_of_mem _ hx))
    have hcne : c ≠ [] := hne c (List.mem_cons_self c cs)
    simp only [writeBatches, hih, chunkFailures]
    cases hr : resp i with
    | ok len f =>
      have hlen : len = c.length := hresp 0 len f (by rwa [Nat.add_zero])
      subst hlen
      simp only [put_records_batch, if_neg hcne, hr]
      simp [Prod.ext_iff]
      try omega
    | err =>
      simp only [put_records_batch, if_neg hcne, hr]
      simp [Prod.ext_iff]
      try omega

lemma sum_length_chunksOfF (size : Nat) (hsize : size ≠ 0) :
    ∀ (fuel : Nat) (l : List α), l.length ≤ fuel →
      ((chunksOfF fuel size l).map List.length).sum = l.length := by
  intro fuel
  induction fuel with
  | zero =>
    intro l hl
    cases l with
    | nil => rfl
    | cons x xs => simp at hl
  | succ n ih =>
    intro l hl
    cases l with
    | nil => rfl
    | cons x xs =>
      simp only [chunksOfF, if_neg hsize]
      rw [List.map_cons, List.sum_cons,
        ih ((x :: xs).drop size)
          (by
            simp only [List.length_drop, List.length_cons] at hl ⊢
            omega)]
      simp only [List.length_take, List.length_drop, List.length_cons]
      omega

lemma sum_length_chunksOf (size : Nat) (hsize : 0 < size)
    (l : List α) : ((chunksOf size l).map List.length).sum = l.length :=
  sum_length_chunksOfF size (by omega) l.length l (Nat.le_refl _)

lemma chunksOfF_ne_nil (size : Nat) :
    ∀ (fuel : Nat) (l : List α) (c : List α),
      c ∈ chunksOfF fuel size l → c ≠ [] := by
  intro fuel
  induction fuel with
  | zero =>
    intro l c hc
    cases l with
    | nil => simp [chunksOfF] at hc
    | cons x xs =>
      simp only [chunksOfF, List.mem_singleton] at hc
      subst hc
      simp
  | succ n ih =>
    intro l c hc
    cases l with
    | nil => simp [chunksOfF] at hc
    | cons x xs =>
      by_cases hs : size = 0
      · simp only [chunksOfF, if_pos hs, List.mem_singleton] at hc
        subst hc
        simp
      · simp only [chunksOfF, if_neg hs, List.mem_cons] at hc
        rcases hc with rfl | hc
        · cases size with
          | zero => exact absurd rfl hs
          | succ m => simp [List.take_cons]
        · exact ih _ _ hc

/-- C4: deliver (`write_articles` with batching) never raises — in the
model it is a total function; `deliver([])` returns `(0, 0)`; and on `N`
records where the stream reports `K` record failures in total (a raised
exception counting the whole chunk or record as failed), the result is
`(N − K, K)` — given a positive batch size and well-formed responses
(an answered chunk's `Records` list has the chunk's length). -/
theorem C4_write_articles_counts :
    ∀ (batchSize : Nat) (resp : Nat → BatchResponse)
      (respSingle : Nat → Bool) (articles : List ProcessedArticle),
      0 < batchSize →
      (∀ j len f, resp j = .ok len f →
        len = ((chunksOf batchSize articles).getD j []).length) →
      write_articles batchSize resp respSingle [] true = (0, 0) ∧
      write_articles batchSize resp respSingle articles true
        = ((articles.length : Int)
             - (deliveryFailures batchSize resp respSingle articles : Int),
           (deliveryFailures batchSize resp respSingle articles : Int)) := by
  intro batchSize resp respSingle articles hbs hwf
  refine ⟨rfl, ?_⟩
  by_cases hnil : articles = []
  · subst hnil; rfl
  · simp only [write_articles, if_neg hnil]
    by_cases hlen : articles.length > 1
    · rw [if_pos (by simp [hlen])]
      rw [deliveryFailures, if_pos hlen]
      rw [writeBatches_counts resp (chunksOf batchSize articles) 0
        (by intro j len f h; exact hwf j len f (by simpa using h))
        (fun c hc => chunksOfF_ne_nil batchSize _ _ c hc)]
      rw [sum_length_chunksOf batchSize hbs]
    · rw [if_neg (by simp [hlen])]
      rw [deliveryFailures, if_neg hlen]
      exact writeSingles_counts respSingle articles 0

theorem C4_witness :
    write_articles 2 c4resp (fun _ => true) (List.replicate 3 c4art) true
      = (((List.replicate 3 c4art).length : Int)
           - (deliveryFailures 2 c4resp (fun _ => true)
               (List.replicate 3 c4art) : Int),
         (deliveryFailures 2 c4resp (fun _ => true)
             (List.replicate 3 c4art) : Int)) :=
  (C4_write_articles_counts 2 c4resp (fun _ => true)
    (List.replicate 3 c4art) (by decide)
    (by
      intro j len f h
      cases j with
      | zero =>
        simp [c4resp] at h
        rw [← h.1]
        decide
      | succ j' =>
        cases j' with
        | zero =>
          simp [c4resp] at h
          rw [← h.1]
          decide
        | succ j'' => simp [c4resp] at h)).2

/-- C5: pagination stops at exactly the first stop condition reached.
Conjunct 1: with `totalResults = 250` and page size 100, exactly pages
1, 2, 3 are requested and 250 records are returned.  Conjunct 2: an
empty page stops pagination — and contributes no records — even though
the reported total (10 pages) and `max_pages = 5` would allow more.
Conjunct 3: reaching `ceil(totalResults / page_size)` stops pagination
with the page's records kept, though `max_pages = 9` is far.  Conjunct
4: reaching `max_pages = 1` stops pagination though 100 total pages
were reported.  Conjunct 5: when no condition holds after page 1, page
2 is requested. -/
theorem C5_pagination_stop_conditions :
    fetch_all_articles c5api 100 none 10
      = some (List.replicate 250 c5raw, [1, 2, 3]) ∧
    fetch_all_articles (fun _ => FetchResult.ok [] 1000) 100 (some 5) 10
      = some ([], [1]) ∧
    fetch_all_articles (fun _ => FetchResult.ok [c5raw] 50) 100 (some 9) 10
      = some ([c5raw], [1]) ∧
    fetch_all_articles (fun _ => FetchResult.ok [c5raw] 10000) 100 (some 1)
        10
      = some ([c5raw], [1]) ∧
    fetch_all_articles c6api 100 none 10 = some ([c5raw], [1, 2]) :=
  ⟨by decide, by decide, by decide, by decide, by decide⟩

lemma fetchAllAux_error_run (api : Nat → FetchResult) (pageSize : Nat)
    (maxPages : Option Nat) :
    ∀ (n page : Nat) (acc : List RawArticle) (trace : List Nat)
      (fuel : Nat),
      (∀ j, j < n → continuesAt api pageSize maxPages (page + j)) →
      api (page + n) = .err →
      n + 1 ≤ fuel →
      fetchAllAux api pageSize maxPages fuel page acc trace
        = some (acc ++ (List.range' page n).flatMap
              (fun p => artsOf (api p)),
            trace ++ List.range' page (n + 1)) := by
  intro n
  induction n with
  | zero =>
    intro page acc trace fuel hcont herr hfuel
    cases fuel with
    | zero => omega
    | succ f =>
      rw [Nat.add_zero] at herr
      simp [fetchAllAux, herr]
  | succ n ih =>
    intro page acc trace fuel hcont herr hfuel
    cases fuel with
    | zero => omega
    | succ f =>
      have h0 : continuesAt api pageSize maxPages page := by
        have := hcont 0 (by omega)
        simpa using this
      cases hap : api page with
      | err =>
        simp only [continuesAt, hap] at h0
      | ok arts total =>
        simp only [continuesAt, hap] at h0
        obtain ⟨hne, hlt, hmp⟩ := h0
        simp only [fetchAllAux, hap]
        rw [if_neg (by simpa [List.isEmpty_iff] using hne)]
        rw [if_neg (by omega)]
        rw [if_neg (by simp [hmp])]
        rw [ih (page + 1) (acc ++ arts) (trace ++ [page]) f
          (by
            intro j hj
            have := hcont (j + 1) (by omega)
            rwa [show page + (j + 1) = page + 1 + j by omega] at this)
          (by rwa [show page + 1 + n = page + (n + 1) by omega])
          (by omega)]
        rw [List.range'_succ page (n + 1) 1,
          List.range'_succ page n 1]
        simp [hap, artsOf]

/-- C6: if pages 1..n succeed without hitting a stop condition and the
request for page n+1 fails (any exception: network error, non-2xx,
timeout, or an `error`-status payload), `fetch_all_articles` stops
immediately and returns normally — no error escapes — with exactly the
records accumulated from the n prior successful pages. -/
theorem C6_page_failure_returns_partial_results :
    ∀ (api : Nat → FetchResult) (pageSize : Nat) (maxPages : Option Nat)
      (n fuel : Nat),
      (∀ p, 1 ≤ p → p ≤ n → continuesAt api pageSize maxPages p) →
      api (n + 1) = .err →
      n + 1 ≤ fuel →
      fetch_all_articles api pageSize maxPages fuel
        = some ((List.range' 1 n).flatMap (fun p => artsOf (api p)),
            List.range' 1 (n + 1)) := by
  intro api pageSize maxPages n fuel hcont herr hfuel
  unfold fetch_all_articles
  rw [fetchAllAux_error_run api pageSize maxPages n 1 [] [] fuel
    (by intro j hj; exact hcont (1 + j) (by omega) (by omega))
    (by rwa [show 1 + n = n + 1 by omega])
    hfuel]
  simp

theorem C6_witness :
    fetch_all_articles c6api 100 none 10
      = some ((List.range' 1 1).flatMap (fun p => artsOf (c6api p)),
          List.range' 1 2) :=
  C6_page_failure_returns_partial_results c6api 100 none 1 10
    (by
      intro p h1 h2
      have hp : p = 1 := by omega
      subst hp
      simp [continuesAt, c6api, mpReached])
    (by decide) (by decide)

end NewsIngest

